import Mathlib

/-!
Shallow embedding of the AOG-TaskController core (lansalot/AOG-TaskController).

The embedded code comes from:
* `src/task_controller.cpp` — `ClientState` and `MyTCServer` member functions
  (section state vectors, `on_value_command`, `update_section_states`,
  `send_section_setpoint_states`, DDI → element-number cache), with the member
  declarations, in-class initialisers and `SectionState` constants taken from
  `task_controller.hpp`;
* `src/udp_connections.cpp` — `calculate_crc`, `send`, and the inbound frame
  layout of `handle_incoming_packets`;
* `src/app.cpp` — the AOG heartbeat packet construction in `Application::update`.

Machine integers are modelled as `Nat` with explicit wrap-around only where the
source can actually overflow.  Partners (`std::shared_ptr<isobus::ControlFunction>`
keys of the client `std::map`) are modelled as `Nat` keys of an association list
kept in key order, which matches `std::map` iteration order.  SET-VALUE commands
going out over CAN (`send_set_value` of the isobus library base class) are
modelled as an emitted list of `Emission` records, in emission order.
-/

namespace AOGTC

/-! ## Constants

`SectionState` codes from `task_controller.hpp` (2-bit per-section codes) and
`NUMBER_SECTIONS_PER_CONDENSED_MESSAGE` from the same header. -/

def OFF : Nat := 0

def ON : Nat := 1

def ERROR_SATE : Nat := 2

def NOT_INSTALLED : Nat := 3

def NUMBER_SECTIONS_PER_CONDENSED_MESSAGE : Nat := 16

/-! DDI values from `isobus::DataDescriptionIndex`
(AgIsoStack `isobus_standard_data_description_indices.hpp`, ISO 11783-11):
Setpoint Work State = 140, Actual Work State = 141, Section Control State = 160,
Setpoint Condensed Work State 1-16 .. 241-256 = 161..176,
Actual Condensed Work State 1-16 .. 241-256 = 177..192. -/

def SetpointWorkState : Nat := 140

def ActualWorkState : Nat := 141

def SectionControlState : Nat := 160

def SetpointCondensedWorkState1_16 : Nat := 161

def SetpointCondensedWorkState17_32 : Nat := 162

def SetpointCondensedWorkState241_256 : Nat := 176

def ActualCondensedWorkState1_16 : Nat := 177

def ActualCondensedWorkState241_256 : Nat := 192

/-! ## ClientState -/

/-- Per-partner client state (`ClientState` declared in `task_controller.hpp`,
member functions in `task_controller.cpp`).  Two members are omitted: the DDOP
object pool and the `elementWorkStates` per-element override map — none of the
embedded operations read or write them.  `ddiToElementNumber` is the
`std::map<DataDescriptionIndex, uint16_t>` cache, modelled as an association
list. -/
structure ClientState where
  numberOfSections : Nat
  sectionSetpointStates : List Nat
  sectionActualStates : List Nat
  setpointWorkState : Bool
  actualWorkState : Bool
  isSectionControlEnabled : Bool
  areMeasurementCommandsSent : Bool
  ddiToElementNumber : List (Nat × Nat)
deriving Repr, DecidableEq

/-- A freshly constructed `ClientState`.  The class (task_controller.hpp) has
no user-provided constructor, and both construction sites value-initialise it —
`clients[partner]` through `std::map::operator[]`, and `ClientState()` in
`activate_object_pool` — which zero-initialises the object before the in-class
initialisers run.  Hence `numberOfSections` (declared without an in-class
initialiser) reads 0, the section vectors and the DDI map are empty, and
`areMeasurementCommandsSent`, `setpointWorkState`, `actualWorkState` and
`isSectionControlEnabled` are `false` per their `= false` initialisers. -/
def defaultClientState : ClientState :=
  { numberOfSections := 0
    sectionSetpointStates := []
    sectionActualStates := []
    setpointWorkState := false
    actualWorkState := false
    isSectionControlEnabled := false
    areMeasurementCommandsSent := false
    ddiToElementNumber := [] }

/-- `std::vector::resize(n)`: keep the first `n` elements, pad with
value-initialised (zero) elements. -/
def listResize (l : List Nat) (n : Nat) : List Nat :=
  l.take n ++ List.replicate (n - l.length) 0

/-- `ClientState::set_number_of_sections` (task_controller.cpp:17). -/
def ClientState.set_number_of_sections (st : ClientState) (number : Nat) : ClientState :=
  { st with
    numberOfSections := number
    sectionSetpointStates := listResize st.sectionSetpointStates number
    sectionActualStates := listResize st.sectionActualStates number }

/-- `ClientState::set_section_setpoint_state` (task_controller.cpp:24). -/
def ClientState.set_section_setpoint_state (st : ClientState) (sec state : Nat) : ClientState :=
  if sec < st.numberOfSections then
    { st with sectionSetpointStates := st.sectionSetpointStates.set sec state }
  else st

/-- `ClientState::set_section_actual_state` (task_controller.cpp:32). -/
def ClientState.set_section_actual_state (st : ClientState) (sec state : Nat) : ClientState :=
  if sec < st.numberOfSections then
    { st with sectionActualStates := st.sectionActualStates.set sec state }
  else st

/-- `ClientState::get_section_setpoint_state` (task_controller.cpp:45). -/
def ClientState.get_section_setpoint_state (st : ClientState) (sec : Nat) : Nat :=
  if sec < st.numberOfSections then st.sectionSetpointStates.getD sec 0
  else NOT_INSTALLED

/-- `ClientState::get_section_actual_state` (task_controller.cpp:54). -/
def ClientState.get_section_actual_state (st : ClientState) (sec : Nat) : Nat :=
  if sec < st.numberOfSections then st.sectionActualStates.getD sec 0
  else NOT_INSTALLED

/-- `ClientState::is_any_section_setpoint_on` (task_controller.cpp:63). -/
def ClientState.is_any_section_setpoint_on (st : ClientState) : Bool :=
  st.sectionSetpointStates.any (fun state => state == ON)

/-- `ClientState::set_setpoint_work_state` (task_controller.cpp:80). -/
def ClientState.set_setpoint_work_state (st : ClientState) (b : Bool) : ClientState :=
  { st with setpointWorkState := b }

/-- `ClientState::set_section_control_enabled` (task_controller.cpp:100). -/
def ClientState.set_section_control_enabled (st : ClientState) (b : Bool) : ClientState :=
  { st with isSectionControlEnabled := b }

/-- `ClientState::get_element_number_for_ddi` (task_controller.cpp:120):
`std::map::find`, returning `0` when the DDI has no cached entry. -/
def ClientState.get_element_number_for_ddi (st : ClientState) (ddi : Nat) : Nat :=
  match st.ddiToElementNumber.lookup ddi with
  | some elementNumber => elementNumber
  | none => 0

/-! ## Server state and CAN emissions -/

/-- One `send_set_value(client, ddi, elementNumber, value)` call of the isobus
TC server base class, as observed on the CAN side. -/
structure Emission where
  partner : Nat
  ddi : Nat
  element : Nat
  value : Nat
deriving Repr, DecidableEq

/-- `MyTCServer`'s `std::map<std::shared_ptr<ControlFunction>, ClientState> clients`,
as a key-ordered association list (iteration follows list order). -/
structure MyTCServer where
  clients : List (Nat × ClientState)
deriving Repr, DecidableEq

/-- `std::map::find` on the clients map. -/
def mapLookup : List (Nat × ClientState) → Nat → Option ClientState
  | [], _ => none
  | (k, v) :: rest, p => if p == k then some v else mapLookup rest p

/-- The read part of `clients[partner]`: `operator[]` default-inserts a
`ClientState` when the key is absent (keys are kept in `std::map` order). -/
def mapGetOrInsert : List (Nat × ClientState) → Nat → List (Nat × ClientState)
  | [], p => [(p, defaultClientState)]
  | (k, v) :: rest, p =>
    if p < k then (p, defaultClientState) :: (k, v) :: rest
    else if p == k then (k, v) :: rest
    else (k, v) :: mapGetOrInsert rest p

/-- Overwrite the value stored under an existing key. -/
def mapSet : List (Nat × ClientState) → Nat → ClientState → List (Nat × ClientState)
  | [], _, _ => []
  | (k, v) :: rest, p, st => if p == k then (k, st) :: rest else (k, v) :: mapSet rest p st

/-- `MyTCServer::on_value_command` (task_controller.cpp:282).  The 16 condensed
actual work state cases unpack sixteen 2-bit fields of the 32-bit process data
value; `value` is the 32-bit bit pattern of `processDataValue`.  All accesses to
`clients[partner]` go through the default-inserting `operator[]`. -/
def MyTCServer.on_value_command (srv : MyTCServer) (partner ddi value : Nat) :
    MyTCServer × Bool :=
  let clients := mapGetOrInsert srv.clients partner
  let st := (mapLookup clients partner).getD defaultClientState
  let st' :=
    if ActualCondensedWorkState1_16 ≤ ddi ∧ ddi ≤ ActualCondensedWorkState241_256 then
      let sectionIndexOffset :=
        NUMBER_SECTIONS_PER_CONDENSED_MESSAGE * (ddi - ActualCondensedWorkState1_16)
      (List.range NUMBER_SECTIONS_PER_CONDENSED_MESSAGE).foldl
        (fun s i => s.set_section_actual_state (i + sectionIndexOffset) ((value >>> (2 * i)) &&& 3))
        st
    else if ddi = SectionControlState then
      st.set_section_control_enabled (value == 1)
    else if ddi = ActualWorkState then
      st.set_setpoint_work_state (value == 1)
    else st
  ({ clients := mapSet clients partner st' }, true)

/-- `MyTCServer::send_section_setpoint_states` (task_controller.cpp:500): pack
the 16 setpoint states of the window `ddiOffset` into a 32-bit word (section
`sectionOffset + i` in bits `2i..2i+1`), emit a SET-VALUE on
`SetpointCondensedWorkState1_16 + ddiOffset`, then emit a `SetpointWorkState`
SET-VALUE when the any-section-on summary changed. -/
def send_section_setpoint_states (p : Nat) (st : ClientState) (ddiOffset : Nat) :
    ClientState × List Emission :=
  let sectionOffset := ddiOffset * NUMBER_SECTIONS_PER_CONDENSED_MESSAGE
  let value := (List.range NUMBER_SECTIONS_PER_CONDENSED_MESSAGE).foldl
    (fun v i => v ||| (st.get_section_setpoint_state (sectionOffset + i) <<< (2 * i))) 0
  let ddiTarget := SetpointCondensedWorkState1_16 + ddiOffset
  let elementNumber := st.get_element_number_for_ddi ddiTarget
  let ems := [{ partner := p, ddi := ddiTarget, element := elementNumber, value := value }]
  let setpointWorkState := st.is_any_section_setpoint_on
  if st.setpointWorkState != setpointWorkState then
    (st.set_setpoint_work_state setpointWorkState,
     ems ++ [{ partner := p, ddi := SetpointWorkState,
               element := st.get_element_number_for_ddi SetpointWorkState,
               value := if setpointWorkState then 1 else 0 }])
  else (st, ems)

/-- One iteration `i` of the per-section loop of
`MyTCServer::update_section_states` (task_controller.cpp:461-479): at a
16-section boundary with buffered changes, flush the previous window and clear
the dirty flag; then, when the desired vector covers index `i` and differs
from the stored setpoint, write ON/OFF and set the dirty flag.  Result:
(state, requiresUpdate, emissions of this iteration). -/
def uss_iter (d : List Bool) (p : Nat) (st : ClientState) (requiresUpdate : Bool) (i : Nat) :
    ClientState × Bool × List Emission :=
  let r1 :=
    if i % NUMBER_SECTIONS_PER_CONDENSED_MESSAGE = 0 ∧ requiresUpdate then
      let fl := send_section_setpoint_states p st (i / NUMBER_SECTIONS_PER_CONDENSED_MESSAGE - 1)
      (fl.1, false, fl.2)
    else (st, requiresUpdate, [])
  if i < d.length then
    if d.getD i false ≠ (r1.1.get_section_setpoint_state i == ON) then
      (r1.1.set_section_setpoint_state i (if d.getD i false then ON else OFF), true, r1.2.2)
    else r1
  else r1

/-- The per-section loop of `MyTCServer::update_section_states`
(task_controller.cpp:461-479), run over the list of loop indices
`0 .. numberOfSections - 1`.  Result: (state, requiresUpdate, emissions). -/
def uss_loop (d : List Bool) (p : Nat) :
    List Nat → ClientState → Bool → ClientState × Bool × List Emission
  | [], st, requiresUpdate => (st, requiresUpdate, [])
  | i :: rest, st, requiresUpdate =>
    let s := uss_iter d p st requiresUpdate i
    let r := uss_loop d p rest s.1 s.2.1
    (r.1, r.2.1, s.2.2 ++ r.2.2)

/-- `MyTCServer::update_section_states`, body for one client
(task_controller.cpp:460-484): run the loop for `i = 0 .. numberOfSections - 1`,
then flush the window `numberOfSections / 16` if still dirty. -/
def update_section_states_client (p : Nat) (st : ClientState) (d : List Bool) :
    ClientState × List Emission :=
  let r := uss_loop d p (List.range st.numberOfSections) st false
  if r.2.1 then
    let fl := send_section_setpoint_states p r.1
      (st.numberOfSections / NUMBER_SECTIONS_PER_CONDENSED_MESSAGE)
    (fl.1, r.2.2 ++ fl.2)
  else (r.1, r.2.2)

/-- The client iteration of `MyTCServer::update_section_states`
(task_controller.cpp:449-486).  A client without section control enabled makes
the whole member function `return`, leaving the remaining clients unprocessed. -/
def uss_clients (d : List Bool) :
    List (Nat × ClientState) → List (Nat × ClientState) × List Emission
  | [] => ([], [])
  | (p, st) :: rest =>
    if !st.isSectionControlEnabled then ((p, st) :: rest, [])
    else
      let r := update_section_states_client p st d
      let rr := uss_clients d rest
      ((p, r.1) :: rr.1, r.2 ++ rr.2)

/-- `MyTCServer::update_section_states` (task_controller.cpp:449). -/
def MyTCServer.update_section_states (srv : MyTCServer) (d : List Bool) :
    MyTCServer × List Emission :=
  let r := uss_clients d srv.clients
  ({ clients := r.1 }, r.2)

/-! ## AOG UDP codec (`udp_connections.cpp`) -/

/-- `PACKET_START` (udp_connections.hpp): `0x8081`. -/
def PACKET_START : Nat := 0x8081

/-- `UdpConnections::calculate_crc` (udp_connections.cpp:85): unsigned byte sum
of the span, truncated to 8 bits.  The source loop counter `i` is a `uint8_t`;
for a span longer than 255 bytes it wraps around before reaching `data.size()`
and the loop never terminates, which this model renders as `none`. -/
def calculate_crc (data : List Nat) : Option Nat :=
  if data.length ≤ 255 then some ((data.foldl (fun result b => result + b) 0) &&& 0xFF)
  else none

/-- `UdpConnections::send` (udp_connections.cpp:251): the UDP datagram built in
`txBuffer` — start bytes, source, PGN, payload length (a `uint8_t`, hence
`% 256`), payload, then the checksum over bytes `2 .. 4 + L`.  `none` stands
for the call never returning (see `calculate_crc`). -/
def send (src pgn : Nat) (data : List Nat) : Option (List Nat) :=
  let frame := [PACKET_START >>> 8, PACKET_START &&& 0xFF, src, pgn, data.length % 256] ++ data
  match calculate_crc (frame.drop 2) with
  | some crc => some (frame ++ [crc])
  | none => none

/-- The inbound frame layout of `UdpConnections::handle_incoming_packets`
(udp_connections.cpp:114-137): 16-bit big-endian start word `0x8081`, then
source, PGN, payload length `L`, `L` payload bytes and a trailing checksum
byte (read but not validated).  `none` when the start word mismatches or the
buffer is shorter than the frame. -/
def parse_frame (buf : List Nat) : Option (Nat × Nat × List Nat) :=
  match buf with
  | b0 :: b1 :: src :: pgn :: len :: rest =>
    if (b0 <<< 8) ||| b1 = PACKET_START then
      if len + 1 ≤ rest.length then some (src, pgn, rest.take len) else none
    else none
  | _ => none

/-! ## AOG heartbeat (`app.cpp`, `Application::update`) -/

/-- The inner `for (i = 0; i < 8; i++)` of the heartbeat packer
(app.cpp:148-156): fold over bit positions, each in-range section advancing
`sectionIndex` and OR-ing its on-bit into the byte.  State is
(byte, sectionIndex). -/
def hb_inner (st : ClientState) (sectionIndex : Nat) : Nat × Nat :=
  (List.range 8).foldl
    (fun bi i =>
      if bi.2 < st.numberOfSections then
        (bi.1 ||| ((if st.get_section_actual_state bi.2 == ON then 1 else 0) <<< i), bi.2 + 1)
      else bi)
    (0, sectionIndex)

/-- The outer `while (sectionIndex < numberOfSections)` of the heartbeat packer
(app.cpp:146-158).  Each iteration advances `sectionIndex` by at least one, so
`numberOfSections` rounds of fuel make the recursion structural without
changing the computed list. -/
def hb_outer (st : ClientState) : Nat → Nat → List Nat
  | 0, _ => []
  | fuel + 1, sectionIndex =>
    if sectionIndex < st.numberOfSections then
      let bi := hb_inner st sectionIndex
      bi.1 :: hb_outer st fuel bi.2
    else []

/-- The heartbeat payload built per client in `Application::update`
(app.cpp:143-158): section-control flag byte, section count byte, then the
bit-packed actual-on bytes. -/
def heartbeat_payload (st : ClientState) : List Nat :=
  [if st.isSectionControlEnabled then 1 else 0, st.numberOfSections] ++
    hb_outer st st.numberOfSections 0

/-- The heartbeat emission loop (app.cpp:140-160): one
`udpConnections->send(0x80, 0xF0, data)` per client, in client-map order,
regardless of any client flag. -/
def heartbeat_packets (srv : MyTCServer) : List (Nat × Nat × List Nat) :=
  srv.clients.map (fun c => (0x80, 0xF0, heartbeat_payload c.2))

/-! ## Concrete states used by counterexamples and witnesses -/

/-- A client with exactly 16 sections (the AOG limit), all setpoint and actual
states `OFF`, section control enabled, and an empty DDI → element cache. -/
def exClient16 : ClientState :=
  { numberOfSections := 16
    sectionSetpointStates := List.replicate 16 0
    sectionActualStates := List.replicate 16 0
    setpointWorkState := false
    actualWorkState := false
    isSectionControlEnabled := true
    areMeasurementCommandsSent := true
    ddiToElementNumber := [] }

/-- A server with the single 16-section client above, under partner key 0. -/
def exServer16 : MyTCServer := { clients := [(0, exClient16)] }

/-- Desired section states asking only section 0 to turn on. -/
def exDesired16 : List Bool := true :: List.replicate 15 false

/-- A one-section client in manual mode (section control disabled). -/
def exClientManual : ClientState :=
  { exClient16 with
    numberOfSections := 1
    sectionSetpointStates := [0]
    sectionActualStates := [0]
    isSectionControlEnabled := false }

/-- A one-section client in auto mode (section control enabled). -/
def exClientAuto : ClientState := { exClientManual with isSectionControlEnabled := true }

/-- A server whose first client (key 0) has section control disabled while its
second client (key 1) has it enabled. -/
def exServerMixed : MyTCServer := { clients := [(0, exClientManual), (1, exClientAuto)] }

/-- A three-section client whose actual states are ON, OFF, ON. -/
def exClient3 : ClientState :=
  { exClient16 with
    numberOfSections := 3
    sectionSetpointStates := [0, 0, 0]
    sectionActualStates := [1, 0, 1] }

/-- A server with the three-section client above under partner key 5. -/
def exServer3 : MyTCServer := { clients := [(5, exClient3)] }

/-- Statement vocabulary: `a` agrees with `b` on every `ClientState` component
that the setpoint-propagation loop may not change, keeping only the length (not
the contents) of the setpoint vector. -/
def samePassive (a b : ClientState) : Prop :=
  a.numberOfSections = b.numberOfSections ∧
  a.sectionActualStates = b.sectionActualStates ∧
  a.sectionSetpointStates.length = b.sectionSetpointStates.length ∧
  a.isSectionControlEnabled = b.isSectionControlEnabled ∧
  a.ddiToElementNumber = b.ddiToElementNumber ∧
  a.areMeasurementCommandsSent = b.areMeasurementCommandsSent ∧
  a.actualWorkState = b.actualWorkState

/-- The section-vector invariant of spec §8.1: both per-section vectors have
exactly `number_of_sections` entries. -/
def ClientStateInv (st : ClientState) : Prop :=
  st.sectionSetpointStates.length = st.numberOfSections ∧
  st.sectionActualStates.length = st.numberOfSections

/-- The section-vector invariant for every client installed in the server. -/
def ServerInv (srv : MyTCServer) : Prop :=
  ∀ c ∈ srv.clients, ClientStateInv c.2

/-- A server whose first client (key 0) is in auto mode and whose second
client (key 1) is in manual mode. -/
def exServerMixed2 : MyTCServer := { clients := [(0, exClientAuto), (1, exClientManual)] }

/-! ## Theorems -/

/-- C5: for any section index `i ≥ number_of_sections`, the setpoint and actual
state setters leave the client state completely unchanged (no error is
signalled — the functions return normally), and the getters return
`NOT_INSTALLED`. -/
theorem section_access_out_of_range (st : ClientState) (i s : Nat)
    (h : st.numberOfSections ≤ i) :
    st.set_section_setpoint_state i s = st ∧
    st.set_section_actual_state i s = st ∧
    st.get_section_setpoint_state i = NOT_INSTALLED ∧
    st.get_section_actual_state i = NOT_INSTALLED := by
  have hn : ¬ i < st.numberOfSections := Nat.not_lt.mpr h
  exact ⟨if_neg hn, if_neg hn, if_neg hn, if_neg hn⟩

/-- Witness for `section_access_out_of_range` at index 5 of a 3-section client. -/
theorem section_access_out_of_range_witness :
    exClient3.numberOfSections ≤ 5 ∧
    (exClient3.set_section_setpoint_state 5 1 = exClient3 ∧
     exClient3.set_section_actual_state 5 1 = exClient3 ∧
     exClient3.get_section_setpoint_state 5 = NOT_INSTALLED ∧
     exClient3.get_section_actual_state 5 = NOT_INSTALLED) :=
  ⟨by decide, section_access_out_of_range exClient3 5 1 (by decide)⟩

/-- C7 (code bug): an incoming SET-VALUE on the `ActualWorkState` DDI with
value 1 leaves `actual_work_state` untouched and instead sets
`setpoint_work_state` — the handler writes the wrong field. -/
theorem on_value_command_actual_work_state_eval :
    ((MyTCServer.mk [(0, defaultClientState)]).on_value_command 0 ActualWorkState 1).2 = true ∧
    ((MyTCServer.mk [(0, defaultClientState)]).on_value_command 0 ActualWorkState 1).1.clients.map
      (fun c => (c.2.setpointWorkState, c.2.actualWorkState)) = [(true, false)] := by
  decide

set_option maxRecDepth 8192 in
/-- C1 (code bug): with exactly 16 sections, all setpoints OFF and section
control enabled, asking section 0 to turn on makes the after-loop flush target
`ddiOffset = 16 / 16 = 1`, i.e. DDI `SetpointCondensedWorkState17_32`, packing
the sixteen sections past the end (all `NOT_INSTALLED`, word `0xFFFFFFFF`),
while no SET-VALUE at all is emitted on `SetpointCondensedWorkState1_16` — the
only window that actually changed. -/
theorem update_section_states_full_final_window_misflush :
    (exServer16.update_section_states exDesired16).2.map (fun e => (e.ddi, e.value)) =
      [(SetpointCondensedWorkState17_32, 4294967295), (SetpointWorkState, 1)] ∧
    ∀ e ∈ (exServer16.update_section_states exDesired16).2,
      e.ddi ≠ SetpointCondensedWorkState1_16 := by
  decide

set_option maxRecDepth 8192 in
/-- C3 counterexample: in `exServerMixed` the first client (key 0) has section
control disabled; `update_section_states [true]` then returns before reaching
the enabled client under key 1, whose differing desired state (ON vs OFF) is
neither written nor flushed — no SET-VALUE is emitted at all. -/
theorem update_section_states_skips_after_disabled_client :
    mapLookup (exServerMixed.update_section_states [true]).1.clients 1 = some exClientAuto ∧
    exClientAuto.isSectionControlEnabled = true ∧
    (true : Bool) ≠ (exClientAuto.get_section_setpoint_state 0 == ON) ∧
    exClientAuto.get_section_setpoint_state 0 = OFF ∧
    (exServerMixed.update_section_states [true]).2 = [] := by
  decide

set_option maxRecDepth 8192 in
/-- C8 counterexample: a 253-byte payload (≤ 255 as the claim allows) makes
`calculate_crc` run over a 256-byte span, whose `uint8_t` loop counter wraps
before reaching the bound, so `send` never returns (modelled as `none`) and no
emitted buffer exists to parse back. -/
theorem send_diverges_on_long_payload :
    (List.replicate 253 0).length ≤ 255 ∧
    send 0 0 (List.replicate 253 0) = none := by
  decide

/-- C10: a DDI absent from `ddi_to_element_number` resolves to element number
0 (no failure), and a setpoint flush for a window whose condensed DDI is not
yet bound emits its SET-VALUE with element number 0. -/
theorem element_number_defaults_to_zero (st : ClientState) (ddi : Nat)
    (h : st.ddiToElementNumber.lookup ddi = none) :
    st.get_element_number_for_ddi ddi = 0 ∧
    ∀ p ddiOffset, ddi = SetpointCondensedWorkState1_16 + ddiOffset →
      ∃ e rest, (send_section_setpoint_states p st ddiOffset).2 = e :: rest ∧
        e.ddi = ddi ∧ e.element = 0 := by
  have h0 : st.get_element_number_for_ddi ddi = 0 := by
    simp [ClientState.get_element_number_for_ddi, h]
  refine ⟨h0, ?_⟩
  rintro p off rfl
  simp only [send_section_setpoint_states]
  split
  · exact ⟨_, _, rfl, rfl, h0⟩
  · exact ⟨_, _, rfl, rfl, h0⟩

/-- Witness for `element_number_defaults_to_zero`: `exClient16` has an empty
DDI cache, so the flush of window 0 goes out with element number 0. -/
theorem element_number_defaults_to_zero_witness :
    exClient16.get_element_number_for_ddi SetpointCondensedWorkState1_16 = 0 ∧
    ∃ e rest, (send_section_setpoint_states 0 exClient16 0).2 = e :: rest ∧
      e.ddi = SetpointCondensedWorkState1_16 ∧ e.element = 0 := by
  have h := element_number_defaults_to_zero exClient16 SetpointCondensedWorkState1_16 (by decide)
  exact ⟨h.1, h.2 0 0 (by decide)⟩


theorem mapLookup_mem_keys {l : List (Nat × ClientState)} {p : Nat} {st : ClientState}
    (h : mapLookup l p = some st) : p ∈ l.map Prod.fst := by
  induction l with
  | nil => simp [mapLookup] at h
  | cons kv rest ih =>
    obtain ⟨k, v⟩ := kv
    by_cases hk : p = k
    · simp [hk]
    · simp only [mapLookup, beq_iff_eq, if_neg hk] at h
      simp [ih h]

theorem mapGetOrInsert_of_lookup {l : List (Nat × ClientState)} {p : Nat} {st : ClientState}
    (hsorted : (l.map Prod.fst).Pairwise (· < ·))
    (h : mapLookup l p = some st) : mapGetOrInsert l p = l := by
  induction l with
  | nil => simp [mapLookup] at h
  | cons kv rest ih =>
    obtain ⟨k, v⟩ := kv
    by_cases hk : p = k
    · simp [mapGetOrInsert, hk]
    · simp only [mapLookup, beq_iff_eq, if_neg hk] at h
      have hmem : p ∈ rest.map Prod.fst := mapLookup_mem_keys h
      have hkp : k < p := by
        simp only [List.map_cons, List.pairwise_cons] at hsorted
        exact hsorted.1 p hmem
      have h1 : ¬ p < k := by omega
      simp only [List.map_cons, List.pairwise_cons] at hsorted
      simp [mapGetOrInsert, h1, hk, ih hsorted.2 h]

theorem mapLookup_mapSet_self {l : List (Nat × ClientState)} {p : Nat} {st : ClientState}
    (st' : ClientState) (h : mapLookup l p = some st) :
    mapLookup (mapSet l p st') p = some st' := by
  induction l with
  | nil => simp [mapLookup] at h
  | cons kv rest ih =>
    obtain ⟨k, v⟩ := kv
    by_cases hk : p = k
    · simp [mapSet, mapLookup, hk]
    · simp only [mapLookup, beq_iff_eq, if_neg hk] at h
      simp [mapSet, mapLookup, hk, ih h]

theorem condensed_fold_spec (value off : Nat) (l : List Nat) :
    ∀ (st : ClientState), st.sectionActualStates.length = st.numberOfSections →
    ((l.foldl (fun s i => s.set_section_actual_state (i + off) ((value >>> (2 * i)) &&& 3)) st).numberOfSections = st.numberOfSections ∧
     (l.foldl (fun s i => s.set_section_actual_state (i + off) ((value >>> (2 * i)) &&& 3)) st).sectionSetpointStates = st.sectionSetpointStates ∧
     (l.foldl (fun s i => s.set_section_actual_state (i + off) ((value >>> (2 * i)) &&& 3)) st).setpointWorkState = st.setpointWorkState ∧
     (l.foldl (fun s i => s.set_section_actual_state (i + off) ((value >>> (2 * i)) &&& 3)) st).actualWorkState = st.actualWorkState ∧
     (l.foldl (fun s i => s.set_section_actual_state (i + off) ((value >>> (2 * i)) &&& 3)) st).isSectionControlEnabled = st.isSectionControlEnabled ∧
     (l.foldl (fun s i => s.set_section_actual_state (i + off) ((value >>> (2 * i)) &&& 3)) st).ddiToElementNumber = st.ddiToElementNumber ∧
     (l.foldl (fun s i => s.set_section_actual_state (i + off) ((value >>> (2 * i)) &&& 3)) st).sectionActualStates.length = st.sectionActualStates.length ∧
     ∀ j, (l.foldl (fun s i => s.set_section_actual_state (i + off) ((value >>> (2 * i)) &&& 3)) st).sectionActualStates[j]? =
       if (∃ i ∈ l, j = i + off) ∧ j < st.numberOfSections
       then some ((value >>> (2 * (j - off))) &&& 3)
       else st.sectionActualStates[j]?) := by
  induction l with
  | nil =>
    intro st hlen
    refine ⟨rfl, rfl, rfl, rfl, rfl, rfl, rfl, ?_⟩
    intro j
    simp
  | cons i rest ih =>
    intro st hlen
    simp only [List.foldl_cons]
    have hst1len : (st.set_section_actual_state (i + off) ((value >>> (2 * i)) &&& 3)).sectionActualStates.length = (st.set_section_actual_state (i + off) ((value >>> (2 * i)) &&& 3)).numberOfSections := by
      unfold ClientState.set_section_actual_state
      split
      · simpa using hlen
      · exact hlen
    obtain ⟨hN, hsp, hwp, haw, hsc, hddi, hlen2, hget⟩ := ih _ hst1len
    have hst1N : (st.set_section_actual_state (i + off) ((value >>> (2 * i)) &&& 3)).numberOfSections = st.numberOfSections := by
      unfold ClientState.set_section_actual_state
      split <;> rfl
    have hst1sp : (st.set_section_actual_state (i + off) ((value >>> (2 * i)) &&& 3)).sectionSetpointStates = st.sectionSetpointStates := by
      unfold ClientState.set_section_actual_state
      split <;> rfl
    have hst1wp : (st.set_section_actual_state (i + off) ((value >>> (2 * i)) &&& 3)).setpointWorkState = st.setpointWorkState := by
      unfold ClientState.set_section_actual_state
      split <;> rfl
    have hst1aw : (st.set_section_actual_state (i + off) ((value >>> (2 * i)) &&& 3)).actualWorkState = st.actualWorkState := by
      unfold ClientState.set_section_actual_state
      split <;> rfl
    have hst1sc : (st.set_section_actual_state (i + off) ((value >>> (2 * i)) &&& 3)).isSectionControlEnabled = st.isSectionControlEnabled := by
      unfold ClientState.set_section_actual_state
      split <;> rfl
    have hst1ddi : (st.set_section_actual_state (i + off) ((value >>> (2 * i)) &&& 3)).ddiToElementNumber = st.ddiToElementNumber := by
      unfold ClientState.set_section_actual_state
      split <;> rfl
    have hst1lenpres : (st.set_section_actual_state (i + off) ((value >>> (2 * i)) &&& 3)).sectionActualStates.length = st.sectionActualStates.length := by
      unfold ClientState.set_section_actual_state
      split
      · simp
      · rfl
    refine ⟨hN.trans hst1N, hsp.trans hst1sp, hwp.trans hst1wp, haw.trans hst1aw,
      hsc.trans hst1sc, hddi.trans hst1ddi, hlen2.trans hst1lenpres, ?_⟩
    intro j
    rw [hget j, hst1N]
    by_cases hrest : (∃ i2 ∈ rest, j = i2 + off) ∧ j < st.numberOfSections
    · rw [if_pos hrest, if_pos ⟨⟨hrest.1.choose, by simp [hrest.1.choose_spec.1], hrest.1.choose_spec.2⟩, hrest.2⟩]
    · rw [if_neg hrest]
      by_cases hhead : j = i + off ∧ j < st.numberOfSections
      · rw [if_pos ⟨⟨i, by simp, hhead.1⟩, hhead.2⟩]
        unfold ClientState.set_section_actual_state
        rw [if_pos (hhead.1 ▸ hhead.2)]
        have : j < st.sectionActualStates.length := hlen ▸ hhead.2
        simp only []
        rw [hhead.1]
        rw [List.getElem?_set_self (by omega)]
        have hio : i + off - off = i := Nat.add_sub_cancel i off
        rw [hio]
      · have hcond : ¬ ((∃ i2 ∈ i :: rest, j = i2 + off) ∧ j < st.numberOfSections) := by
          rintro ⟨⟨i2, hi2mem, hi2eq⟩, hjN⟩
          rcases List.mem_cons.mp hi2mem with h | h
          · exact hhead ⟨h ▸ hi2eq, hjN⟩
          · exact hrest ⟨⟨i2, h, hi2eq⟩, hjN⟩
        rw [if_neg hcond]
        unfold ClientState.set_section_actual_state
        split
        · rename_i hguard
          have hne : i + off ≠ j := by
            intro heq
            exact hhead ⟨heq.symm, heq ▸ hguard⟩
          simp only []
          exact List.getElem?_set_ne hne
        · rfl



theorem get_section_actual_state_of_lt (st : ClientState) (j : Nat)
    (h : j < st.numberOfSections) :
    st.get_section_actual_state j = st.sectionActualStates[j]?.getD 0 := by
  unfold ClientState.get_section_actual_state
  rw [if_pos h, List.getD_eq_getElem?_getD]

set_option maxHeartbeats 800000 in
/-- C2: condensed actual work state commands unpack sixteen 2-bit fields. -/
theorem on_value_command_condensed_actual (srv : MyTCServer) (p ddi value : Nat)
    (st : ClientState)
    (h1 : ActualCondensedWorkState1_16 ≤ ddi) (h2 : ddi ≤ ActualCondensedWorkState241_256)
    (hv : value < 2 ^ 32)
    (hsorted : (srv.clients.map Prod.fst).Pairwise (· < ·))
    (hlook : mapLookup srv.clients p = some st)
    (hlen : st.sectionActualStates.length = st.numberOfSections) :
    (srv.on_value_command p ddi value).2 = true ∧
    ∃ st', mapLookup (srv.on_value_command p ddi value).1.clients p = some st' ∧
      st'.numberOfSections = st.numberOfSections ∧
      st'.sectionSetpointStates = st.sectionSetpointStates ∧
      (∀ i, i < 16 → (ddi - ActualCondensedWorkState1_16) * 16 + i < st.numberOfSections →
        st'.get_section_actual_state ((ddi - ActualCondensedWorkState1_16) * 16 + i) =
          (value >>> (2 * i)) &&& 3) ∧
      (∀ j, j < st.numberOfSections →
        (j < (ddi - ActualCondensedWorkState1_16) * 16 ∨
          (ddi - ActualCondensedWorkState1_16) * 16 + 16 ≤ j) →
        st'.get_section_actual_state j = st.get_section_actual_state j) := by
  have hins : mapGetOrInsert srv.clients p = srv.clients := mapGetOrInsert_of_lookup hsorted hlook
  have hguard : ActualCondensedWorkState1_16 ≤ ddi ∧ ddi ≤ ActualCondensedWorkState241_256 :=
    ⟨h1, h2⟩
  simp only [MyTCServer.on_value_command, hins, hlook, Option.getD_some, if_pos hguard]
  obtain ⟨hN, hsp, -, -, -, -, -, hget⟩ :=
    condensed_fold_spec value
      (NUMBER_SECTIONS_PER_CONDENSED_MESSAGE * (ddi - ActualCondensedWorkState1_16))
      (List.range NUMBER_SECTIONS_PER_CONDENSED_MESSAGE) st hlen
  refine ⟨trivial, _, mapLookup_mapSet_self _ hlook, hN, hsp, ?_, ?_⟩
  · intro i hi hiN
    have hmem : (∃ i2 ∈ List.range NUMBER_SECTIONS_PER_CONDENSED_MESSAGE,
        (ddi - ActualCondensedWorkState1_16) * 16 + i =
          i2 + NUMBER_SECTIONS_PER_CONDENSED_MESSAGE * (ddi - ActualCondensedWorkState1_16)) ∧
        (ddi - ActualCondensedWorkState1_16) * 16 + i < st.numberOfSections := by
      refine ⟨⟨i, ?_, ?_⟩, hiN⟩ <;>
        simp only [List.mem_range, NUMBER_SECTIONS_PER_CONDENSED_MESSAGE] <;> omega
    have hgj := hget ((ddi - ActualCondensedWorkState1_16) * 16 + i)
    rw [if_pos hmem] at hgj
    have hsub : (ddi - ActualCondensedWorkState1_16) * 16 + i -
        NUMBER_SECTIONS_PER_CONDENSED_MESSAGE * (ddi - ActualCondensedWorkState1_16) = i := by
      simp only [NUMBER_SECTIONS_PER_CONDENSED_MESSAGE]
      omega
    rw [hsub] at hgj
    rw [get_section_actual_state_of_lt _ _ (by rw [hN]; exact hiN), hgj]
    rfl
  · intro j hjN hout
    have hnomem : ¬ ((∃ i2 ∈ List.range NUMBER_SECTIONS_PER_CONDENSED_MESSAGE,
        j = i2 + NUMBER_SECTIONS_PER_CONDENSED_MESSAGE * (ddi - ActualCondensedWorkState1_16)) ∧
        j < st.numberOfSections) := by
      rintro ⟨⟨i2, hi2mem, hi2eq⟩, -⟩
      simp only [List.mem_range, NUMBER_SECTIONS_PER_CONDENSED_MESSAGE] at hi2mem hi2eq
      omega
    have hgj := hget j
    rw [if_neg hnomem] at hgj
    rw [get_section_actual_state_of_lt _ _ (by rw [hN]; exact hjN),
      get_section_actual_state_of_lt _ _ hjN, hgj]

theorem samePassive_refl (a : ClientState) : samePassive a a :=
  ⟨rfl, rfl, rfl, rfl, rfl, rfl, rfl⟩

theorem samePassive_trans {a b c : ClientState} (h1 : samePassive a b)
    (h2 : samePassive b c) : samePassive a c := by
  obtain ⟨x1, x2, x3, x4, x5, x6, x7⟩ := h1
  obtain ⟨y1, y2, y3, y4, y5, y6, y7⟩ := h2
  exact ⟨x1.trans y1, x2.trans y2, x3.trans y3, x4.trans y4, x5.trans y5, x6.trans y6,
    x7.trans y7⟩

theorem samePassive_set_setpoint (st : ClientState) (sec v : Nat) :
    samePassive (st.set_section_setpoint_state sec v) st := by
  unfold ClientState.set_section_setpoint_state
  split
  · exact ⟨rfl, rfl, List.length_set .., rfl, rfl, rfl, rfl⟩
  · exact samePassive_refl st

theorem samePassive_set_work_state (st : ClientState) (b : Bool) :
    samePassive (st.set_setpoint_work_state b) st :=
  ⟨rfl, rfl, rfl, rfl, rfl, rfl, rfl⟩

theorem get_setpoint_congr {a b : ClientState} (j : Nat)
    (hN : a.numberOfSections = b.numberOfSections)
    (hj : a.sectionSetpointStates[j]? = b.sectionSetpointStates[j]?) :
    a.get_section_setpoint_state j = b.get_section_setpoint_state j := by
  unfold ClientState.get_section_setpoint_state
  rw [hN]
  split
  · rw [List.getD_eq_getElem?_getD, List.getD_eq_getElem?_getD, hj]
  · rfl

theorem set_setpoint_getElem_ne (st : ClientState) (sec v j : Nat) (h : j ≠ sec) :
    (st.set_section_setpoint_state sec v).sectionSetpointStates[j]? =
      st.sectionSetpointStates[j]? := by
  unfold ClientState.set_section_setpoint_state
  split
  · exact List.getElem?_set_ne (fun heq => h heq.symm)
  · rfl

theorem set_setpoint_getElem_self (st : ClientState) (sec v : Nat)
    (hlen : st.sectionSetpointStates.length = st.numberOfSections)
    (hsec : sec < st.numberOfSections) :
    (st.set_section_setpoint_state sec v).sectionSetpointStates[sec]? = some v := by
  unfold ClientState.set_section_setpoint_state
  rw [if_pos hsec]
  simp only []
  simp [List.getElem?_set_self, hlen ▸ hsec]

/-- Field bookkeeping for `send_section_setpoint_states`: the flush never
touches the section vectors (only possibly `setpointWorkState`), every emission
carries the partner handle, and the first emission is the condensed SET-VALUE
for window `off`. -/
theorem send_flush_spec (p : Nat) (st : ClientState) (off : Nat) :
    samePassive (send_section_setpoint_states p st off).1 st ∧
    (send_section_setpoint_states p st off).1.sectionSetpointStates =
      st.sectionSetpointStates ∧
    (∀ e ∈ (send_section_setpoint_states p st off).2, e.partner = p) ∧
    ∃ e rest, (send_section_setpoint_states p st off).2 = e :: rest ∧
      e.ddi = SetpointCondensedWorkState1_16 + off ∧ e.partner = p := by
  simp only [send_section_setpoint_states]
  split
  · refine ⟨samePassive_set_work_state .., rfl, ?_, ⟨_, _, rfl, rfl, rfl⟩⟩
    intro e he
    simp only [List.cons_append, List.nil_append, List.mem_cons, List.not_mem_nil,
      or_false] at he
    rcases he with rfl | rfl <;> rfl
  · refine ⟨samePassive_refl st, rfl, ?_, ⟨_, _, rfl, rfl, rfl⟩⟩
    intro e he
    simp only [List.mem_singleton] at he
    subst he
    rfl

/-- Per-iteration bookkeeping for the setpoint loop: passive fields survive,
emissions carry the partner handle, only index `i` of the setpoint vector can
change, and it changes exactly on a buffered difference; an iteration without
emissions either raises the dirty flag or changes nothing. -/
theorem uss_iter_spec (d : List Bool) (p : Nat) (st : ClientState) (req : Bool) (i : Nat) :
    samePassive (uss_iter d p st req i).1 st ∧
    (∀ e ∈ (uss_iter d p st req i).2.2, e.partner = p) ∧
    (∀ j, j ≠ i → (uss_iter d p st req i).1.sectionSetpointStates[j]? =
      st.sectionSetpointStates[j]?) ∧
    (st.sectionSetpointStates.length = st.numberOfSections → i < st.numberOfSections →
      (uss_iter d p st req i).1.sectionSetpointStates[i]? =
        if i < d.length ∧ d.getD i false ≠ (st.get_section_setpoint_state i == ON)
        then some (if d.getD i false then ON else OFF)
        else st.sectionSetpointStates[i]?) ∧
    ((uss_iter d p st req i).2.2 = [] →
      (uss_iter d p st req i).2.1 = true ∨
        ((uss_iter d p st req i).1 = st ∧ (uss_iter d p st req i).2.1 = req)) := by
  obtain ⟨hfp, hfsp, hfpart, e0, rest0, hfe, -, -⟩ :=
    send_flush_spec p st (i / NUMBER_SECTIONS_PER_CONDENSED_MESSAGE - 1)
  have hfget : ∀ j,
      (send_section_setpoint_states p st
        (i / NUMBER_SECTIONS_PER_CONDENSED_MESSAGE - 1)).1.get_section_setpoint_state j =
      st.get_section_setpoint_state j :=
    fun j => get_setpoint_congr j hfp.1 (by rw [hfsp])
  simp only [uss_iter]
  by_cases hc1 : i % NUMBER_SECTIONS_PER_CONDENSED_MESSAGE = 0 ∧ req = true
  · rw [if_pos hc1]
    simp only [hfget]
    by_cases hc2 : i < d.length
    · rw [if_pos hc2]
      by_cases hc3 : d.getD i false ≠ (st.get_section_setpoint_state i == ON)
      · rw [if_pos hc3]
        refine ⟨samePassive_trans (samePassive_set_setpoint ..) hfp, hfpart, ?_, ?_, ?_⟩
        · intro j hj
          rw [set_setpoint_getElem_ne _ _ _ _ hj]
          rw [hfsp]
        · intro hlen hiN
          have hcond : i < d.length ∧
              d.getD i false ≠ (st.get_section_setpoint_state i == ON) := ⟨hc2, hc3⟩
          rw [if_pos hcond]
          exact set_setpoint_getElem_self _ i _
            (by rw [hfsp, hlen, hfp.1]) (by rw [hfp.1]; exact hiN)
        · intro hnil
          rw [hfe] at hnil
          exact absurd hnil (by simp)
      · rw [if_neg hc3]
        refine ⟨hfp, hfpart, ?_, ?_, ?_⟩
        · intro j hj
          rw [hfsp]
        · intro hlen hiN
          rw [if_neg (fun hcontra => hc3 hcontra.2), hfsp]
        · intro hnil
          rw [hfe] at hnil
          exact absurd hnil (by simp)
    · rw [if_neg hc2]
      refine ⟨hfp, hfpart, ?_, ?_, ?_⟩
      · intro j hj
        rw [hfsp]
      · intro hlen hiN
        rw [if_neg (fun hcontra => hc2 hcontra.1), hfsp]
      · intro hnil
        rw [hfe] at hnil
        exact absurd hnil (by simp)
  · rw [if_neg hc1]
    by_cases hc2 : i < d.length
    · rw [if_pos hc2]
      by_cases hc3 : d.getD i false ≠ (st.get_section_setpoint_state i == ON)
      · rw [if_pos hc3]
        refine ⟨samePassive_set_setpoint .., by simp, ?_, ?_, ?_⟩
        · intro j hj
          exact set_setpoint_getElem_ne _ _ _ _ hj
        · intro hlen hiN
          have hcond : i < d.length ∧
              d.getD i false ≠ (st.get_section_setpoint_state i == ON) := ⟨hc2, hc3⟩
          rw [if_pos hcond]
          exact set_setpoint_getElem_self _ i _ hlen hiN
        · intro hnil
          exact Or.inl rfl
      · rw [if_neg hc3]
        refine ⟨samePassive_refl st, by simp, fun j hj => rfl, ?_, fun hnil => Or.inr ⟨rfl, rfl⟩⟩
        intro hlen hiN
        rw [if_neg (fun hcontra => hc3 hcontra.2)]
    · rw [if_neg hc2]
      refine ⟨samePassive_refl st, by simp, fun j hj => rfl, ?_, fun hnil => Or.inr ⟨rfl, rfl⟩⟩
      intro hlen hiN
      rw [if_neg (fun hcontra => hc2 hcontra.1)]

/-- Field bookkeeping for the whole per-section loop. -/
theorem uss_loop_passive (d : List Bool) (p : Nat) :
    ∀ (l : List Nat) (st : ClientState) (req : Bool),
      samePassive (uss_loop d p l st req).1 st ∧
      ∀ e ∈ (uss_loop d p l st req).2.2, e.partner = p := by
  intro l
  induction l with
  | nil =>
    intro st req
    exact ⟨samePassive_refl st, by simp [uss_loop]⟩
  | cons i rest ih =>
    intro st req
    simp only [uss_loop]
    obtain ⟨hp, hpart, -, -, -⟩ := uss_iter_spec d p st req i
    obtain ⟨hp2, hpart2⟩ := ih (uss_iter d p st req i).1 (uss_iter d p st req i).2.1
    refine ⟨samePassive_trans hp2 hp, ?_⟩
    intro e he
    rcases List.mem_append.mp he with h | h
    · exact hpart e h
    · exact hpart2 e h

/-- Field bookkeeping for one client's `update_section_states` body. -/
theorem uss_client_passive (p : Nat) (st : ClientState) (d : List Bool) :
    samePassive (update_section_states_client p st d).1 st ∧
    ∀ e ∈ (update_section_states_client p st d).2, e.partner = p := by
  obtain ⟨hl, hlp⟩ := uss_loop_passive d p (List.range st.numberOfSections) st false
  simp only [update_section_states_client]
  split
  · obtain ⟨hf, -, hfp, -⟩ := send_flush_spec p
      (uss_loop d p (List.range st.numberOfSections) st false).1
      (st.numberOfSections / NUMBER_SECTIONS_PER_CONDENSED_MESSAGE)
    refine ⟨samePassive_trans hf hl, ?_⟩
    intro e he
    rcases List.mem_append.mp he with h | h
    · exact hlp e h
    · exact hfp e h
  · exact ⟨hl, hlp⟩

/-- Effect of the per-section loop on the setpoint vector, over the index
window `k .. k+n-1`: an index with a buffered difference against the desired
state is rewritten to ON/OFF (diffing against the pre-call state, since every
index is visited once, in increasing order), every other entry is untouched. -/
theorem uss_loop_setpoint_spec (d : List Bool) (p : Nat) :
    ∀ (n k : Nat) (st : ClientState) (req : Bool),
      k + n ≤ st.numberOfSections →
      st.sectionSetpointStates.length = st.numberOfSections →
      (∀ j, j < k ∨ k + n ≤ j →
        (uss_loop d p (List.range' k n) st req).1.sectionSetpointStates[j]? =
          st.sectionSetpointStates[j]?) ∧
      (∀ j, k ≤ j → j < k + n →
        (uss_loop d p (List.range' k n) st req).1.sectionSetpointStates[j]? =
          if j < d.length ∧ d.getD j false ≠ (st.get_section_setpoint_state j == ON)
          then some (if d.getD j false then ON else OFF)
          else st.sectionSetpointStates[j]?) := by
  intro n
  induction n with
  | zero =>
    intro k st req hkn hlen
    refine ⟨fun j hj => rfl, fun j hj1 hj2 => ?_⟩
    omega
  | succ n ih =>
    intro k st req hkn hlen
    rw [List.range'_succ]
    simp only [uss_loop]
    obtain ⟨hip, -, hine, hieq, -⟩ := uss_iter_spec d p st req k
    have hiN : (uss_iter d p st req k).1.numberOfSections = st.numberOfSections := hip.1
    have hilen : (uss_iter d p st req k).1.sectionSetpointStates.length =
        (uss_iter d p st req k).1.numberOfSections := by
      rw [hip.2.2.1, hlen, hiN]
    have hbound : (k + 1) + n ≤ (uss_iter d p st req k).1.numberOfSections := by
      rw [hiN]
      omega
    obtain ⟨hout, hin⟩ := ih (k + 1) (uss_iter d p st req k).1 (uss_iter d p st req k).2.1
      hbound hilen
    have hgcongr : ∀ j, j ≠ k →
        (uss_iter d p st req k).1.get_section_setpoint_state j =
          st.get_section_setpoint_state j :=
      fun j hj => get_setpoint_congr j hiN (hine j hj)
    constructor
    · intro j hj
      have hj2 : j < k + 1 ∨ (k + 1) + n ≤ j := by omega
      rw [hout j hj2]
      exact hine j (by omega)
    · intro j hj1 hj2
      by_cases hjk : j = k
      · subst hjk
        rw [hout j (by omega)]
        exact hieq hlen (by omega)
      · have hj3 : k + 1 ≤ j := by omega
        rw [hin j hj3 (by omega)]
        rw [hgcongr j hjk, hine j hjk]

/-- A loop entered with the dirty flag raised and emitting nothing keeps the
flag raised (a flush is the only way to clear it, and every flush emits). -/
theorem uss_loop_req_stays (d : List Bool) (p : Nat) :
    ∀ (l : List Nat) (st : ClientState),
      (uss_loop d p l st true).2.2 = [] → (uss_loop d p l st true).2.1 = true := by
  intro l
  induction l with
  | nil => intro st h; rfl
  | cons i rest ih =>
    intro st h
    simp only [uss_loop] at h ⊢
    have hsplit := List.append_eq_nil.mp h
    obtain ⟨-, -, -, -, hnil⟩ := uss_iter_spec d p st true i
    have hreq : (uss_iter d p st true i).2.1 = true := by
      rcases hnil hsplit.1 with h1 | ⟨-, h1⟩ <;> exact h1
    rw [hreq] at hsplit ⊢
    exact ih _ hsplit.2

/-- A loop run that emits nothing either leaves the setpoint vector unchanged
or ends with the dirty flag raised. -/
theorem uss_loop_unchanged_or_req (d : List Bool) (p : Nat) :
    ∀ (l : List Nat) (st : ClientState) (req : Bool),
      (uss_loop d p l st req).2.2 = [] →
      (uss_loop d p l st req).1.sectionSetpointStates = st.sectionSetpointStates ∨
        (uss_loop d p l st req).2.1 = true := by
  intro l
  induction l with
  | nil => intro st req h; exact Or.inl rfl
  | cons i rest ih =>
    intro st req h
    simp only [uss_loop] at h ⊢
    have hsplit := List.append_eq_nil.mp h
    obtain ⟨-, -, -, -, hnil⟩ := uss_iter_spec d p st req i
    rcases hnil hsplit.1 with h1 | ⟨h1, h2⟩
    · rw [h1] at hsplit ⊢
      exact Or.inr (uss_loop_req_stays d p rest _ hsplit.2)
    · rw [h1, h2] at hsplit ⊢
      exact ih st req hsplit.2

/-- One client's `update_section_states` body: passive fields survive,
emissions carry the partner handle, differing indices are rewritten, and at
least one SET-VALUE goes out whenever some index differs. -/
theorem uss_client_spec (p : Nat) (st : ClientState) (d : List Bool)
    (hlen : st.sectionSetpointStates.length = st.numberOfSections) :
    samePassive (update_section_states_client p st d).1 st ∧
    (∀ e ∈ (update_section_states_client p st d).2, e.partner = p) ∧
    (∀ i, i < st.numberOfSections →
      (update_section_states_client p st d).1.sectionSetpointStates[i]? =
        if i < d.length ∧ d.getD i false ≠ (st.get_section_setpoint_state i == ON)
        then some (if d.getD i false then ON else OFF)
        else st.sectionSetpointStates[i]?) ∧
    ((∃ i, i < st.numberOfSections ∧ i < d.length ∧
        d.getD i false ≠ (st.get_section_setpoint_state i == ON)) →
      (update_section_states_client p st d).2 ≠ []) := by
  obtain ⟨hlp, hlpart⟩ := uss_loop_passive d p (List.range st.numberOfSections) st false
  have hspec := uss_loop_setpoint_spec d p st.numberOfSections 0 st false (by omega) hlen
  rw [← List.range_eq_range'] at hspec
  obtain ⟨hout0, hin0⟩ := hspec
  simp only [update_section_states_client]
  split
  · rename_i hreq
    obtain ⟨hfp, hfsp, hfpart, e0, r0, hfe, -, -⟩ := send_flush_spec p
      (uss_loop d p (List.range st.numberOfSections) st false).1
      (st.numberOfSections / NUMBER_SECTIONS_PER_CONDENSED_MESSAGE)
    refine ⟨samePassive_trans hfp hlp, ?_, ?_, ?_⟩
    · intro e he
      rcases List.mem_append.mp he with h | h
      · exact hlpart e h
      · exact hfpart e h
    · intro i hiN
      rw [hfsp]
      exact hin0 i (by omega) (by omega)
    · intro hex
      simp [hfe]
  · rename_i hreq
    refine ⟨hlp, hlpart, ?_, ?_⟩
    · intro i hiN
      exact hin0 i (by omega) (by omega)
    · rintro ⟨i, hiN, hid, hdiff⟩ hnil
      rcases uss_loop_unchanged_or_req d p (List.range st.numberOfSections) st false hnil
        with hunch | hr
      · have hchar := hin0 i (by omega) (by omega)
        have hcond : i < d.length ∧
            d.getD i false ≠ (st.get_section_setpoint_state i == ON) := ⟨hid, hdiff⟩
        rw [if_pos hcond, hunch] at hchar
        have hgetter : st.get_section_setpoint_state i =
            if d.getD i false then ON else OFF := by
          unfold ClientState.get_section_setpoint_state
          rw [if_pos hiN, List.getD_eq_getElem?_getD, hchar]
          rfl
        cases hd : d.getD i false <;> rw [hd] at hdiff <;>
          rw [hd] at hgetter <;> rw [hgetter] at hdiff <;> simp [ON, OFF] at hdiff
      · exact hreq hr

/-- The client iteration processes, in map order, exactly the clients up to the
first one with section control disabled; a client in the all-enabled prefix is
updated by the per-client body and its emissions reach the output. -/
theorem uss_clients_prefix (d : List Bool) :
    ∀ (l1 l2 : List (Nat × ClientState)) (p : Nat) (st : ClientState),
      (∀ c ∈ l1, c.2.isSectionControlEnabled = true) →
      st.isSectionControlEnabled = true →
      ((l1 ++ (p, st) :: l2).map Prod.fst).Nodup →
      mapLookup (uss_clients d (l1 ++ (p, st) :: l2)).1 p =
        some (update_section_states_client p st d).1 ∧
      ∀ e ∈ (update_section_states_client p st d).2,
        e ∈ (uss_clients d (l1 ++ (p, st) :: l2)).2 := by
  intro l1
  induction l1 with
  | nil =>
    intro l2 p st hpre hsc hnodup
    simp only [List.nil_append, uss_clients]
    rw [if_neg (by simp [hsc])]
    constructor
    · simp [mapLookup]
    · intro e he
      exact List.mem_append_left _ he
  | cons kv l1 ih =>
    obtain ⟨k, v⟩ := kv
    intro l2 p st hpre hsc hnodup
    have hken : v.isSectionControlEnabled = true := hpre (k, v) (by simp)
    simp only [List.cons_append, uss_clients]
    rw [if_neg (by simp [hken])]
    simp only [List.cons_append, List.map_cons, List.nodup_cons] at hnodup
    have hkp : p ≠ k := by
      intro hcontra
      subst hcontra
      exact hnodup.1 (List.mem_map.mpr ⟨(p, st), by simp, rfl⟩)
    obtain ⟨hlook, hmemb⟩ :=
      ih l2 p st (fun c hc => hpre c (List.mem_cons_of_mem _ hc)) hsc hnodup.2
    constructor
    · simp only [mapLookup, beq_iff_eq, if_neg hkp]
      exact hlook
    · intro e he
      exact List.mem_append_right _ (hmemb e he)

set_option maxHeartbeats 800000 in
/-- C3 (amended): `update_section_states` applies the diff to a client with
section control enabled provided every client before it in the map also has
section control enabled (the member function returns at the first disabled
client).  For such a client, every index `i < min(number_of_sections, |desired|)`
whose desired state differs from `(setpoint == ON)` is rewritten to ON/OFF, and
when any index differs at least one SET-VALUE is emitted for that client. -/
theorem update_section_states_enabled_prefix (srv : MyTCServer) (d : List Bool)
    (l1 l2 : List (Nat × ClientState)) (p : Nat) (st : ClientState)
    (hsplit : srv.clients = l1 ++ (p, st) :: l2)
    (hnodup : (srv.clients.map Prod.fst).Nodup)
    (hpre : ∀ c ∈ l1, c.2.isSectionControlEnabled = true)
    (hsc : st.isSectionControlEnabled = true)
    (hlen : st.sectionSetpointStates.length = st.numberOfSections) :
    ∃ st', mapLookup (srv.update_section_states d).1.clients p = some st' ∧
      (∀ i, i < st.numberOfSections → i < d.length →
        d.getD i false ≠ (st.get_section_setpoint_state i == ON) →
        st'.get_section_setpoint_state i = if d.getD i false then ON else OFF) ∧
      ((∃ i, i < st.numberOfSections ∧ i < d.length ∧
          d.getD i false ≠ (st.get_section_setpoint_state i == ON)) →
        ∃ e ∈ (srv.update_section_states d).2, e.partner = p) := by
  rw [hsplit] at hnodup
  obtain ⟨hlook, hmemb⟩ := uss_clients_prefix d l1 l2 p st hpre hsc hnodup
  obtain ⟨hcp, hcpart, hchar, hnonempty⟩ := uss_client_spec p st d hlen
  refine ⟨(update_section_states_client p st d).1, ?_, ?_, ?_⟩
  · simp only [MyTCServer.update_section_states, hsplit]
    exact hlook
  · intro i hiN hid hdiff
    have hchar2 := hchar i hiN
    have hcond : i < d.length ∧
        d.getD i false ≠ (st.get_section_setpoint_state i == ON) := ⟨hid, hdiff⟩
    rw [if_pos hcond] at hchar2
    unfold ClientState.get_section_setpoint_state
    rw [if_pos (by rw [hcp.1]; exact hiN), List.getD_eq_getElem?_getD, hchar2]
    rfl
  · intro hex
    have hne := hnonempty hex
    cases hcl : (update_section_states_client p st d).2 with
    | nil => exact absurd hcl hne
    | cons e0 r0 =>
      refine ⟨e0, ?_, hcpart e0 (by rw [hcl]; simp)⟩
      simp only [MyTCServer.update_section_states, hsplit]
      exact hmemb e0 (by rw [hcl]; simp)

/-- Witness for `update_section_states_enabled_prefix`: the single enabled
16-section client of `exServer16` (an empty prefix before it). -/
theorem update_section_states_enabled_prefix_witness :
    exServer16.clients = [] ++ (0, exClient16) :: [] ∧
    exClient16.isSectionControlEnabled = true ∧
    ∃ st', mapLookup (exServer16.update_section_states exDesired16).1.clients 0 = some st' ∧
      (∀ i, i < exClient16.numberOfSections → i < exDesired16.length →
        exDesired16.getD i false ≠ (exClient16.get_section_setpoint_state i == ON) →
        st'.get_section_setpoint_state i = if exDesired16.getD i false then ON else OFF) ∧
      ((∃ i, i < exClient16.numberOfSections ∧ i < exDesired16.length ∧
          exDesired16.getD i false ≠ (exClient16.get_section_setpoint_state i == ON)) →
        ∃ e ∈ (exServer16.update_section_states exDesired16).2, e.partner = 0) :=
  ⟨rfl, rfl,
   update_section_states_enabled_prefix exServer16 exDesired16 [] [] 0 exClient16 rfl
     (by decide) (by simp) (by decide) (by decide)⟩


theorem inv_of_samePassive {a b : ClientState} (hp : samePassive a b)
    (hi : ClientStateInv b) : ClientStateInv a := by
  obtain ⟨hN, hact, hsplen, -, -, -, -⟩ := hp
  exact ⟨hsplen.trans (hi.1.trans hN.symm),
    (congrArg List.length hact).trans (hi.2.trans hN.symm)⟩

theorem length_listResize (l : List Nat) (n : Nat) : (listResize l n).length = n := by
  simp only [listResize, List.length_append, List.length_take, List.length_replicate]
  omega

theorem inv_set_number_of_sections (st : ClientState) (n : Nat) :
    ClientStateInv (st.set_number_of_sections n) :=
  ⟨length_listResize .., length_listResize ..⟩

theorem mapLookup_mem {l : List (Nat × ClientState)} {p : Nat} {st : ClientState}
    (h : mapLookup l p = some st) : (p, st) ∈ l := by
  induction l with
  | nil => simp [mapLookup] at h
  | cons kv rest ih =>
    obtain ⟨k, v⟩ := kv
    by_cases hk : p = k
    · subst hk
      simp only [mapLookup, beq_self_eq_true, if_pos] at h
      simp [← Option.some_inj.mp h]
    · simp only [mapLookup, beq_iff_eq, if_neg hk] at h
      simp [ih h]

theorem serverInv_mapGetOrInsert {l : List (Nat × ClientState)} (p : Nat)
    (h : ∀ c ∈ l, ClientStateInv c.2) : ∀ c ∈ mapGetOrInsert l p, ClientStateInv c.2 := by
  induction l with
  | nil =>
    intro c hc
    simp only [mapGetOrInsert, List.mem_singleton] at hc
    subst hc
    exact ⟨rfl, rfl⟩
  | cons kv rest ih =>
    obtain ⟨k, v⟩ := kv
    intro c hc
    simp only [mapGetOrInsert] at hc
    split at hc
    · rcases List.mem_cons.mp hc with rfl | h2
      · exact ⟨rfl, rfl⟩
      · exact h c h2
    · split at hc
      · exact h c hc
      · rcases List.mem_cons.mp hc with rfl | h2
        · exact h (k, v) (by simp)
        · exact ih (fun c2 hc2 => h c2 (List.mem_cons_of_mem _ hc2)) c h2

theorem serverInv_mapSet {l : List (Nat × ClientState)} (p : Nat) {st' : ClientState}
    (h : ∀ c ∈ l, ClientStateInv c.2) (h' : ClientStateInv st') :
    ∀ c ∈ mapSet l p st', ClientStateInv c.2 := by
  induction l with
  | nil => simp [mapSet]
  | cons kv rest ih =>
    obtain ⟨k, v⟩ := kv
    intro c hc
    simp only [mapSet] at hc
    split at hc
    · rcases List.mem_cons.mp hc with rfl | h2
      · exact h'
      · exact h c (List.mem_cons_of_mem _ h2)
    · rcases List.mem_cons.mp hc with rfl | h2
      · exact h (k, v) (by simp)
      · exact ih (fun c2 hc2 => h c2 (List.mem_cons_of_mem _ hc2)) c h2

theorem inv_on_value_command (srv : MyTCServer) (p ddi value : Nat)
    (h : ServerInv srv) : ServerInv (srv.on_value_command p ddi value).1 := by
  have hins : ∀ c ∈ mapGetOrInsert srv.clients p, ClientStateInv c.2 :=
    serverInv_mapGetOrInsert p h
  have hst : ClientStateInv ((mapLookup (mapGetOrInsert srv.clients p) p).getD
      defaultClientState) := by
    cases hl : mapLookup (mapGetOrInsert srv.clients p) p with
    | none => exact ⟨rfl, rfl⟩
    | some st => exact hins (p, st) (mapLookup_mem hl)
  intro c hc
  simp only [MyTCServer.on_value_command] at hc
  split at hc
  · obtain ⟨hN, hsp, -, -, -, -, hlen, -⟩ :=
      condensed_fold_spec value
        (NUMBER_SECTIONS_PER_CONDENSED_MESSAGE * (ddi - ActualCondensedWorkState1_16))
        (List.range NUMBER_SECTIONS_PER_CONDENSED_MESSAGE)
        ((mapLookup (mapGetOrInsert srv.clients p) p).getD defaultClientState) hst.2
    refine serverInv_mapSet p hins ⟨?_, ?_⟩ c hc
    · rw [hsp, hN]
      exact hst.1
    · rw [hlen, hN]
      exact hst.2
  · have h1 : ClientStateInv (((mapLookup (mapGetOrInsert srv.clients p) p).getD
        defaultClientState).set_section_control_enabled (value == 1)) := ⟨hst.1, hst.2⟩
    have h2 : ClientStateInv (((mapLookup (mapGetOrInsert srv.clients p) p).getD
        defaultClientState).set_setpoint_work_state (value == 1)) := ⟨hst.1, hst.2⟩
    split at hc
    · exact serverInv_mapSet p hins h1 c hc
    · split at hc
      · exact serverInv_mapSet p hins h2 c hc
      · exact serverInv_mapSet p hins hst c hc

theorem inv_update_section_states (srv : MyTCServer) (d : List Bool)
    (h : ServerInv srv) : ServerInv (srv.update_section_states d).1 := by
  suffices hgen : ∀ l : List (Nat × ClientState), (∀ c ∈ l, ClientStateInv c.2) →
      ∀ c ∈ (uss_clients d l).1, ClientStateInv c.2 by
    intro c hc
    exact hgen srv.clients h c hc
  intro l
  induction l with
  | nil => simp [uss_clients]
  | cons kv rest ih =>
    obtain ⟨k, v⟩ := kv
    intro hl c hc
    simp only [uss_clients] at hc
    split at hc
    · exact hl c hc
    · rcases List.mem_cons.mp hc with rfl | h2
      · exact inv_of_samePassive (uss_client_passive k v d).1 (hl (k, v) (by simp))
      · exact ih (fun c2 hc2 => hl c2 (List.mem_cons_of_mem _ hc2)) c h2

/-- C6: `set_number_of_sections` establishes the section-vector invariant
(`|setpoints| = |actuals| = number_of_sections`), and both `on_value_command`
and `update_section_states` preserve it for every installed client. -/
theorem section_vector_invariant :
    (∀ (st : ClientState) (n : Nat), ClientStateInv (st.set_number_of_sections n)) ∧
    (∀ (srv : MyTCServer) (p ddi value : Nat), ServerInv srv →
      ServerInv (srv.on_value_command p ddi value).1) ∧
    (∀ (srv : MyTCServer) (d : List Bool), ServerInv srv →
      ServerInv (srv.update_section_states d).1) :=
  ⟨inv_set_number_of_sections, inv_on_value_command, inv_update_section_states⟩

/-- Witness for `section_vector_invariant` on the three-section server. -/
theorem section_vector_invariant_witness :
    ClientStateInv (exClient3.set_number_of_sections 7) ∧
    ServerInv exServer3 ∧
    ServerInv (exServer3.on_value_command 5 ActualCondensedWorkState1_16 20).1 ∧
    ServerInv (exServer3.update_section_states [true, true]).1 := by
  have hsrv : ServerInv exServer3 := by
    intro c hc
    simp only [exServer3, List.mem_singleton] at hc
    subst hc
    exact ⟨rfl, rfl⟩
  exact ⟨section_vector_invariant.1 exClient3 7, hsrv,
    section_vector_invariant.2.1 exServer3 5 ActualCondensedWorkState1_16 20 hsrv,
    section_vector_invariant.2.2 exServer3 [true, true] hsrv⟩

theorem uss_clients_partner_ne (d : List Bool) (p : Nat) (st : ClientState) :
    ∀ l : List (Nat × ClientState), (p, st) ∈ l → (l.map Prod.fst).Nodup →
      st.isSectionControlEnabled = false →
      ∀ e ∈ (uss_clients d l).2, e.partner ≠ p := by
  intro l
  induction l with
  | nil => intro h; simp at h
  | cons kv rest ih =>
    obtain ⟨k, v⟩ := kv
    intro hmem hnodup hsc e he
    simp only [uss_clients] at he
    split at he
    · simp at he
    · rename_i hen
      have hven : v.isSectionControlEnabled = true := by
        simpa using hen
      have hmem2 : (p, st) ∈ rest := by
        rcases List.mem_cons.mp hmem with heq | h2
        · exfalso
          have hst : st = v := congrArg Prod.snd heq
          rw [hst, hven] at hsc
          exact absurd hsc (by simp)
        · exact h2
      have hkp : k ≠ p := by
        intro hkp
        subst hkp
        simp only [List.map_cons, List.nodup_cons] at hnodup
        exact hnodup.1 (List.mem_map.mpr ⟨(k, st), hmem2, rfl⟩)
      rcases List.mem_append.mp he with h | h
      · rw [(uss_client_passive k v d).2 e h]
        exact hkp
      · refine ih hmem2 ?_ hsc e h
        simp only [List.map_cons, List.nodup_cons] at hnodup
        exact hnodup.2

/-- C4: a client whose section control is disabled never has a
`SetpointCondensedWorkState` SET-VALUE emitted for it by
`update_section_states`, whatever the desired states are. -/
theorem update_section_states_disabled_client_silent (srv : MyTCServer) (d : List Bool)
    (p : Nat) (st : ClientState)
    (hmem : (p, st) ∈ srv.clients)
    (hnodup : (srv.clients.map Prod.fst).Nodup)
    (hsc : st.isSectionControlEnabled = false) :
    ∀ e ∈ (srv.update_section_states d).2,
      ¬(e.partner = p ∧ SetpointCondensedWorkState1_16 ≤ e.ddi ∧
        e.ddi ≤ SetpointCondensedWorkState241_256) := by
  intro e he hcontra
  exact uss_clients_partner_ne d p st srv.clients hmem hnodup hsc e he hcontra.1

/-- Witness for `update_section_states_disabled_client_silent`: client 1 of
`exServerMixed2` is in manual mode; the SET-VALUEs triggered by
`update_section_states [true]` (they exist, for client 0) all avoid it. -/
theorem update_section_states_disabled_client_silent_witness :
    (1, exClientManual) ∈ exServerMixed2.clients ∧
    exClientManual.isSectionControlEnabled = false ∧
    (exServerMixed2.update_section_states [true]).2 ≠ [] ∧
    ∀ e ∈ (exServerMixed2.update_section_states [true]).2,
      ¬(e.partner = 1 ∧ SetpointCondensedWorkState1_16 ≤ e.ddi ∧
        e.ddi ≤ SetpointCondensedWorkState241_256) :=
  ⟨by decide, by decide, by decide,
   update_section_states_disabled_client_silent exServerMixed2 [true] 1 exClientManual
     (by decide) (by decide) (by decide)⟩

/-- Witness for `on_value_command_condensed_actual`: three sections, DDI 177,
value `0b010100` (sections OFF, ON, ON). -/
theorem on_value_command_condensed_actual_witness :
    mapLookup exServer3.clients 5 = some exClient3 ∧
    ((exServer3.on_value_command 5 ActualCondensedWorkState1_16 20).2 = true ∧
     ∃ st', mapLookup (exServer3.on_value_command 5 ActualCondensedWorkState1_16 20).1.clients 5 =
         some st' ∧
       st'.numberOfSections = exClient3.numberOfSections ∧
       st'.sectionSetpointStates = exClient3.sectionSetpointStates ∧
       (∀ i, i < 16 →
         (ActualCondensedWorkState1_16 - ActualCondensedWorkState1_16) * 16 + i <
           exClient3.numberOfSections →
         st'.get_section_actual_state
             ((ActualCondensedWorkState1_16 - ActualCondensedWorkState1_16) * 16 + i) =
           (20 >>> (2 * i)) &&& 3) ∧
       (∀ j, j < exClient3.numberOfSections →
         (j < (ActualCondensedWorkState1_16 - ActualCondensedWorkState1_16) * 16 ∨
           (ActualCondensedWorkState1_16 - ActualCondensedWorkState1_16) * 16 + 16 ≤ j) →
         st'.get_section_actual_state j = exClient3.get_section_actual_state j)) :=
  ⟨by decide,
   on_value_command_condensed_actual exServer3 5 ActualCondensedWorkState1_16 20 exClient3
     (by decide) (by decide) (by decide)
     (by simp [exServer3]) (by decide) (by decide)⟩



theorem foldl_add_eq (l : List Nat) : ∀ a, l.foldl (fun result b => result + b) a = a + l.sum := by
  induction l with
  | nil => intro a; simp
  | cons x xs ih =>
    intro a
    rw [List.foldl_cons, ih, List.sum_cons]
    omega

/-- C8 (amended): for payloads of at most 252 bytes, `send` terminates, builds
the framed buffer with the checksum `(src + pgn + L + sum payload) % 256`, and
the buffer parses back (per the inbound frame layout) to the same
`(src, pgn, data)`. -/
theorem send_parse_round_trip (src pgn : Nat) (data : List Nat)
    (hlen : data.length ≤ 252) :
    send src pgn data =
      some ([0x80, 0x81, src, pgn, data.length] ++ data ++
        [(src + pgn + data.length + data.sum) % 256]) ∧
    parse_frame ([0x80, 0x81, src, pgn, data.length] ++ data ++
        [(src + pgn + data.length + data.sum) % 256]) = some (src, pgn, data) := by
  have hmod : data.length % 256 = data.length := Nat.mod_eq_of_lt (by omega)
  constructor
  · simp only [send, calculate_crc, hmod]
    rw [if_pos (by simp; omega)]
    have hcrc : (([PACKET_START >>> 8, PACKET_START &&& 255, src, pgn, data.length] ++
        data).drop 2).foldl (fun result b => result + b) 0 &&& 255 =
        (src + pgn + data.length + data.sum) % 256 := by
      have hdrop : (([PACKET_START >>> 8, PACKET_START &&& 255, src, pgn, data.length] ++
          data).drop 2) = src :: pgn :: data.length :: data := rfl
      rw [hdrop]
      simp only [List.foldl_cons]
      rw [foldl_add_eq, Nat.and_pow_two_sub_one_eq_mod _ 8]
      congr 1
      omega
    rw [hcrc]
    rfl
  · have hstart : ((0x80 : Nat) <<< 8) ||| 0x81 = PACKET_START := by decide
    simp only [List.cons_append, List.nil_append, parse_frame]
    rw [if_pos hstart]
    rw [if_pos (by simp)]
    have htake : (data ++ [(src + pgn + data.length + data.sum) % 256]).take data.length =
        data := List.take_left data _
    rw [htake]

/-- Witness for `send_parse_round_trip` on a three-byte payload. -/
theorem send_parse_round_trip_witness :
    ([(1 : Nat), 2, 3].length ≤ 252) ∧
    (send 0x80 0xF0 [1, 2, 3] =
      some ([0x80, 0x81, 0x80, 0xF0, 3] ++ [1, 2, 3] ++ [(0x80 + 0xF0 + 3 + 6) % 256]) ∧
     parse_frame ([0x80, 0x81, 0x80, 0xF0, 3] ++ [1, 2, 3] ++ [(0x80 + 0xF0 + 3 + 6) % 256]) =
      some (0x80, 0xF0, [1, 2, 3])) :=
  ⟨by decide, send_parse_round_trip 0x80 0xF0 [1, 2, 3] (by decide)⟩



/-- Characterization of the inner heartbeat byte-packing fold: where the
section cursor ends up and which bits are set. -/
theorem hb_fold_spec (st : ClientState) (idx0 : Nat) :
    ∀ n : Nat,
      ((List.range n).foldl
        (fun bi i =>
          if bi.2 < st.numberOfSections then
            (bi.1 ||| ((if st.get_section_actual_state bi.2 == ON then 1 else 0) <<< i),
              bi.2 + 1)
          else bi) (0, idx0)).2 =
        max idx0 (min (idx0 + n) st.numberOfSections) ∧
      ∀ j : Nat,
        ((List.range n).foldl
          (fun bi i =>
            if bi.2 < st.numberOfSections then
              (bi.1 ||| ((if st.get_section_actual_state bi.2 == ON then 1 else 0) <<< i),
                bi.2 + 1)
            else bi) (0, idx0)).1.testBit j =
          (decide (j < n) && decide (idx0 + j < st.numberOfSections) &&
            (st.get_section_actual_state (idx0 + j) == ON)) := by
  intro n
  induction n with
  | zero =>
    constructor
    · simp only [List.range_zero, List.foldl_nil]
      omega
    · intro j
      simp [Nat.zero_testBit]
  | succ n ih =>
    obtain ⟨ih2, ih1⟩ := ih
    rw [List.range_succ]
    simp only [List.foldl_append, List.foldl_cons, List.foldl_nil]
    by_cases hcase : idx0 + n < st.numberOfSections
    · have hguard : ((List.range n).foldl
          (fun bi i =>
            if bi.2 < st.numberOfSections then
              (bi.1 ||| ((if st.get_section_actual_state bi.2 == ON then 1 else 0) <<< i),
                bi.2 + 1)
            else bi) (0, idx0)).2 < st.numberOfSections := by
        rw [ih2]
        omega
      have hidx : ((List.range n).foldl
          (fun bi i =>
            if bi.2 < st.numberOfSections then
              (bi.1 ||| ((if st.get_section_actual_state bi.2 == ON then 1 else 0) <<< i),
                bi.2 + 1)
            else bi) (0, idx0)).2 = idx0 + n := by
        rw [ih2]
        omega
      rw [if_pos hguard, hidx]
      constructor
      · simp only []
        omega
      · intro j
        simp only [Nat.testBit_or, ih1 j, Nat.testBit_shiftLeft]
        rcases Nat.lt_trichotomy j n with hj | hj | hj
        · have h1 : j < n + 1 := by omega
          have h2 : ¬ n ≤ j := by omega
          simp [hj, h1, h2]
        · subst hj
          have h1 : ¬ j < j := by omega
          have h2 : j - j = 0 := by omega
          cases hv : st.get_section_actual_state (idx0 + j) == ON <;>
            simp [h1, h2, hv, hcase]
        · have h1 : ¬ j < n := by omega
          have h2 : ¬ j < n + 1 := by omega
          have h3 : n ≤ j := by omega
          obtain ⟨m, hm⟩ : ∃ m, j - n = m + 1 := ⟨j - n - 1, by omega⟩
          cases hv : st.get_section_actual_state (idx0 + n) == ON <;>
            simp [h1, h2, h3, hm, hv, Nat.testBit_succ]
    · have hguard : ¬ ((List.range n).foldl
          (fun bi i =>
            if bi.2 < st.numberOfSections then
              (bi.1 ||| ((if st.get_section_actual_state bi.2 == ON then 1 else 0) <<< i),
                bi.2 + 1)
            else bi) (0, idx0)).2 < st.numberOfSections := by
        rw [ih2]
        omega
      rw [if_neg hguard]
      constructor
      · rw [ih2]
        omega
      · intro j
        rw [ih1 j]
        rcases Nat.lt_trichotomy j n with hj | hj | hj
        · have h1 : j < n + 1 := by omega
          simp [hj, h1]
        · subst hj
          have h1 : ¬ j < j := by omega
          have h2 : ¬ (idx0 + j < st.numberOfSections) := by omega
          simp [h1, h2]
        · have h1 : ¬ j < n := by omega
          have h2 : ¬ j < n + 1 := by omega
          simp [h1, h2]

/-- The heartbeat outer loop emits nothing once the cursor passed the end. -/
theorem hb_outer_stop (st : ClientState) (fuel idx : Nat)
    (h : st.numberOfSections ≤ idx) : hb_outer st fuel idx = [] := by
  cases fuel with
  | zero => rfl
  | succ fuel => simp [hb_outer, Nat.not_lt.mpr h]

theorem hb_inner_snd (st : ClientState) (k : Nat) :
    (hb_inner st (8 * k)).2 = max (8 * k) (min (8 * k + 8) st.numberOfSections) :=
  (hb_fold_spec st (8 * k) 8).1

/-- Byte `t` of the heartbeat packing, starting the outer loop at section
`8 * k`, is the inner byte for window `k + t`. -/
theorem hb_outer_get (st : ClientState) :
    ∀ (t fuel k : Nat), 8 * (k + t) < st.numberOfSections → t < fuel →
      (hb_outer st fuel (8 * k))[t]? = some (hb_inner st (8 * (k + t))).1 := by
  intro t
  induction t with
  | zero =>
    intro fuel k hk hf
    cases fuel with
    | zero => omega
    | succ fuel =>
      simp only [hb_outer]
      rw [if_pos (by omega : 8 * k < st.numberOfSections)]
      simp
  | succ t ih =>
    intro fuel k hk hf
    cases fuel with
    | zero => omega
    | succ fuel =>
      simp only [hb_outer]
      rw [if_pos (by omega : 8 * k < st.numberOfSections)]
      have hsnd : (hb_inner st (8 * k)).2 = 8 * (k + 1) := by
        rw [hb_inner_snd]
        omega
      rw [List.getElem?_cons_succ, hsnd]
      have := ih fuel (k + 1) (by omega) (by omega)
      rwa [show k + 1 + t = k + (t + 1) by omega] at this

/-- The heartbeat packing emits exactly `⌈(N - 8k) / 8⌉` bytes. -/
theorem hb_outer_length (st : ClientState) :
    ∀ (fuel k : Nat), (st.numberOfSections - 8 * k + 7) / 8 ≤ fuel →
      (hb_outer st fuel (8 * k)).length = (st.numberOfSections - 8 * k + 7) / 8 := by
  intro fuel
  induction fuel with
  | zero =>
    intro k hk
    simp only [hb_outer, List.length_nil]
    omega
  | succ fuel ih =>
    intro k hk
    by_cases hcase : 8 * k < st.numberOfSections
    · simp only [hb_outer]
      rw [if_pos hcase]
      by_cases hcase2 : 8 * k + 8 ≤ st.numberOfSections
      · have hsnd : (hb_inner st (8 * k)).2 = 8 * (k + 1) := by
          rw [hb_inner_snd]
          omega
        rw [hsnd]
        simp only [List.length_cons]
        rw [ih (k + 1) (by omega)]
        omega
      · have hsnd : (hb_inner st (8 * k)).2 = st.numberOfSections := by
          rw [hb_inner_snd]
          omega
        rw [hsnd, hb_outer_stop st fuel _ (by omega)]
        simp only [List.length_cons, List.length_nil]
        omega
    · rw [hb_outer_stop st (fuel + 1) _ (by omega)]
      simp only [List.length_nil]
      omega



theorem hb_inner_testBit (st : ClientState) (idx0 j : Nat) :
    (hb_inner st idx0).1.testBit j =
      (decide (j < 8) && decide (idx0 + j < st.numberOfSections) &&
        (st.get_section_actual_state (idx0 + j) == ON)) :=
  (hb_fold_spec st idx0 8).2 j

/-- C9: the heartbeat loop emits one `(src 0x80, pgn 0xF0)` packet per client
— with no condition on `section_control_enabled` — whose payload is the
section-control flag byte, the section count byte, and `⌈N/8⌉` packed bytes in
which bit `i % 8` of byte `⌊i/8⌋` is set exactly when section `i`'s actual
state is ON. -/
theorem heartbeat_packet_format (srv : MyTCServer) :
    (heartbeat_packets srv).length = srv.clients.length ∧
    ∀ (k : Nat) (c : Nat × ClientState), srv.clients[k]? = some c →
      (heartbeat_packets srv)[k]? = some (0x80, 0xF0, heartbeat_payload c.2) ∧
      (heartbeat_payload c.2).length = 2 + (c.2.numberOfSections + 7) / 8 ∧
      (heartbeat_payload c.2)[0]? = some (if c.2.isSectionControlEnabled then 1 else 0) ∧
      (heartbeat_payload c.2)[1]? = some c.2.numberOfSections ∧
      ∀ i, i < c.2.numberOfSections →
        ∃ b, (heartbeat_payload c.2)[2 + i / 8]? = some b ∧
          b.testBit (i % 8) = (c.2.get_section_actual_state i == ON) := by
  constructor
  · simp [heartbeat_packets]
  · intro k c hk
    refine ⟨?_, ?_, by simp [heartbeat_payload], by simp [heartbeat_payload], ?_⟩
    · simp [heartbeat_packets, List.getElem?_map, hk]
    · simp only [heartbeat_payload, List.cons_append, List.nil_append, List.length_cons]
      have hl := hb_outer_length c.2 c.2.numberOfSections 0 (by omega)
      simp only [Nat.mul_zero] at hl
      rw [hl]
      omega
    · intro i hi
      refine ⟨(hb_inner c.2 (8 * (i / 8))).1, ?_, ?_⟩
      · have hidx : 2 + i / 8 = (i / 8 + 1) + 1 := by omega
        simp only [heartbeat_payload, List.cons_append, List.nil_append, hidx,
          List.getElem?_cons_succ]
        have := hb_outer_get c.2 (i / 8) c.2.numberOfSections 0 (by omega) (by omega)
        simpa using this
      · rw [hb_inner_testBit]
        have hdm : 8 * (i / 8) + i % 8 = i := Nat.div_add_mod i 8
        rw [hdm]
        have h8 : i % 8 < 8 := Nat.mod_lt _ (by omega)
        simp [hi, h8]



/-- Witness for `heartbeat_packet_format` on the three-section server (actual
states ON, OFF, ON: payload `[1, 3, 5]`). -/
theorem heartbeat_packet_format_witness :
    exServer3.clients[0]? = some (5, exClient3) ∧
    (heartbeat_packets exServer3).length = exServer3.clients.length ∧
    (heartbeat_packets exServer3)[0]? = some (0x80, 0xF0, heartbeat_payload exClient3) ∧
    ∃ b, (heartbeat_payload exClient3)[2 + 2 / 8]? = some b ∧
      b.testBit (2 % 8) = (exClient3.get_section_actual_state 2 == ON) := by
  have h := heartbeat_packet_format exServer3
  have h2 := h.2 0 (5, exClient3) (by decide)
  exact ⟨by decide, h.1, h2.1, h2.2.2.2.2 2 (by decide)⟩

end AOGTC
